import Mathlib

/-!
Shallow embedding of `django-ranged-fileresponse` (package `ranged_fileresponse`).

Python strings are embedded as `List Char` (`PyStr`); Python `bytes` read from a
resource are embedded as `List Nat`.  A Python function that may raise is embedded
as `Except Unit _` (the `.error ()` value standing for the raised exception).
The Django/WSGI response layer, the OS (`os.fstat`) and the network transport are
external collaborators: the resource is passed in as the list of its bytes (so the
size obtained from `os.fstat` / `download.total_bytes` is its length).
-/

set_option maxRecDepth 10000

abbrev PyStr := List Char

instance instDecEqExcept {ε α : Type _} [DecidableEq ε] [DecidableEq α] :
    DecidableEq (Except ε α)
  | .error e, .error f =>
    if h : e = f then isTrue (by rw [h]) else isFalse (fun hc => h (Except.error.inj hc))
  | .error _, .ok _ => isFalse Except.noConfusion
  | .ok _, .error _ => isFalse Except.noConfusion
  | .ok a, .ok b =>
    if h : a = b then isTrue (by rw [h]) else isFalse (fun hc => h (Except.ok.inj hc))

/-- Characters stripped by Python `str.strip()` (the ASCII whitespace it removes). -/
def isPySpace (c : Char) : Bool :=
  c == ' ' || c == '\t' || c == '\n' || c == '\r' || c == '\x0b' || c == '\x0c'

/-- Python `str.strip()`: drop whitespace from both ends. -/
def pyStrip (s : PyStr) : PyStr :=
  ((s.dropWhile isPySpace).reverse.dropWhile isPySpace).reverse

/-- Python `str.lower()` (ASCII, which is all the sources compare against). -/
def pyLower (s : PyStr) : PyStr := s.map Char.toLower

/-- Python `s.split(sep, 1)`: split at the first occurrence of `sep`.
The sources only destructure the result as a pair after checking `sep in s`,
so we return the pair directly (whole string and `[]` when `sep` is absent). -/
def pySplitOnce (sep : Char) : PyStr → PyStr × PyStr
  | [] => ([], [])
  | c :: rest =>
    if c = sep then ([], rest)
    else
      let p := pySplitOnce sep rest
      (c :: p.1, p.2)

/-- Python `s.split(sep)` (no maxsplit): split on every occurrence, keeping
empty segments; the result is never the empty list. -/
def pySplit (sep : Char) : PyStr → List PyStr
  | [] => [[]]
  | c :: rest =>
    if c = sep then [] :: pySplit sep rest
    else
      match pySplit sep rest with
      | [] => [[c]]
      | h :: t => (c :: h) :: t

/-- Value of a digit string under Python `int()` (caller checks digits). -/
def digitsVal (s : PyStr) : Nat :=
  s.foldl (fun acc c => acc * 10 + (c.toNat - 48)) 0

/-- The digit test used to model Python numeral parsing. -/
def allDigits (s : PyStr) : Prop := s ≠ [] ∧ ∀ c ∈ s, c.isDigit = true

instance (s : PyStr) : Decidable (allDigits s) := by
  unfold allDigits; infer_instance

/-- Python `int(s)` for the shapes the sources feed it: optional sign followed by
decimal digits, surrounding whitespace allowed; anything else raises `ValueError`
(modelled as `.error ()`). -/
def pyInt (s : PyStr) : Except Unit Int :=
  let t := pyStrip s
  if t.head? = some '-' then
    if allDigits t.tail then .ok (-(digitsVal t.tail : Int)) else .error ()
  else if t.head? = some '+' then
    if allDigits t.tail then .ok (digitsVal t.tail : Int) else .error ()
  else
    if allDigits t then .ok (digitsVal t : Int) else .error ()

/-- Python `str.isnumeric()` for the ASCII inputs at hand: nonempty, all digits. -/
def pyIsNumeric (s : PyStr) : Bool := decide (allDigits s)

/-- The loop guard `position < self.stop` of the reader loops, with `stop`
possibly `float('inf')` (embedded as `none`). -/
def beforeStop (position : Nat) : Option Nat → Bool
  | none => true
  | some s => decide (position < s)

/-- `read_to = min(self.block_size, self.stop - position)` with `stop` possibly
`float('inf')` (in which case the minimum is `block_size`). -/
def readTo (block_size : Nat) (stopv : Option Nat) (position : Nat) : Nat :=
  match stopv with
  | none => block_size
  | some s => min block_size (s - position)

/-- `data = self.f.read(read_to)`: the bytes returned by one `read` call of the
reader loops, given the descriptor offset `filepos`. -/
def readData (file : List Nat) (block_size : Nat) (stopv : Option Nat)
    (position filepos : Nat) : List Nat :=
  (file.drop filepos).take (readTo block_size stopv position)

/-- The keyword payload of `ranged_file_response_signal.send` /
`RangedResponse.send_signal`: one analytics event. -/
structure ChunkEvent where
  start : Int
  stop : Int
  uid : Option String
  reloaded : Bool
  finished : Bool
  http_range : Option PyStr
deriving DecidableEq

namespace Ranged

/-! ### `ranged_fileresponse/__init__.py` -/

/-- `RangedFileReader.parse_range_header` (`__init__.py` lines 59-107).
`.ok none` is Python `None` (syntactically invalid header), `.error ()` is an
uncaught `ValueError` escaping from `int()`.  Parses one comma-separated spec. -/
def parseSpec (resource_size : Nat) (val0 : PyStr) : Except Unit (Option (Int × Int)) :=
  let val := pyStrip val0
  if ¬ ('-' ∈ val) then .ok none
  else if val.head? = some '-' then
    -- suffix-byte-range-spec: the last N bytes of the entity-body
    match pyInt val with
    | .error _ => .error ()
    | .ok k =>
      let start : Int := (resource_size : Int) + k
      let start := if start < 0 then 0 else start
      .ok (some (start, (resource_size : Int)))
  else
    -- byte-range-spec: first-byte-pos "-" [last-byte-pos]
    let p := pySplitOnce '-' val
    match pyInt p.1 with
    | .error _ => .error ()
    | .ok start =>
      match (if p.2 = [] then .ok ((resource_size : Int)) else (pyInt p.2).map (· + 1) :
             Except Unit Int) with
      | .error _ => .error ()
      | .ok stop => if start ≥ stop then .ok none else .ok (some (start, stop))

/-- The `for val in range_.split(','):` loop of `parse_range_header`, with its
early `return None` and the `ValueError` that `int()` may raise. -/
def parseSpecs (resource_size : Nat) : List PyStr → Except Unit (Option (List (Int × Int)))
  | [] => .ok (some [])
  | v :: vs =>
    match parseSpec resource_size v with
    | .error _ => .error ()
    | .ok none => .ok none
    | .ok (some r) =>
      match parseSpecs resource_size vs with
      | .error _ => .error ()
      | .ok none => .ok none
      | .ok (some rs) => .ok (some (r :: rs))

/-- `RangedFileReader.parse_range_header` (`__init__.py` lines 59-107). -/
def parse_range_header (header : PyStr) (resource_size : Nat) :
    Except Unit (Option (List (Int × Int))) :=
  if header = [] ∨ ¬ ('=' ∈ header) then .ok none
  else
    let p := pySplitOnce '=' header
    let units := pyLower (pyStrip p.1)
    if units ≠ "bytes".data then .ok none
    else parseSpecs resource_size (pySplit ',' p.2)

/-- Observable state of a `RangedFileResponse` (`__init__.py` lines 110-189):
status code, the `last_start`/`last_stop` bookkeeping, the window configured on
the wrapped `RangedFileReader` (`reader_stop = none` is the initial
`float('inf')`), and the headers the class sets. -/
structure RangedState where
  status : Nat := 200
  last_start : Int := -1
  last_stop : Int := -1
  reader_start : Nat := 0
  reader_stop : Option Nat := none
  accept_ranges : Bool := false
  content_range : Option (Int × Int × Nat) := none
  content_length : Option Int := none
deriving DecidableEq

/-- `RangedFileResponse.add_range_headers` (`__init__.py` lines 154-189).
`size` is `self.ranged_file.size`; the `try/except ValueError` around the parse
maps `.error` to `None`, and the body runs only for a single parsed range. -/
def add_range_headers (st0 : RangedState) (range_header : PyStr) (size : Nat) : RangedState :=
  let st := { st0 with accept_ranges := true }
  let ranges : Option (List (Int × Int)) :=
    match parse_range_header range_header size with
    | .error _ => none
    | .ok r => r
  match ranges with
  | some [(start, stop)] =>
    let st := { st with last_start := start, last_stop := stop }
    if start ≥ (size : Int) then { st with status := 416 }
    else
      let stop := if stop ≥ (size : Int) then (size : Int) else stop
      { st with
        last_stop := stop
        reader_start := start.toNat
        reader_stop := some stop.toNat
        content_range := some (start, stop - 1, size)
        content_length := some (stop - start)
        status := 206 }
  | _ => st

/-- `RangedFileResponse.__init__` (`__init__.py` lines 117-152): build the state
(running `add_range_headers` when an `HTTP_RANGE` header is present) and emit the
single construction-time signal with `reloaded=True`.  The resource size read by
`os.fstat` is `file.length`. -/
def respond (http_range : Option PyStr) (uid : Option String) (file : List Nat) :
    RangedState × List ChunkEvent :=
  let size := file.length
  let st :=
    match http_range with
    | some h => add_range_headers {} h size
    | none => ({} : RangedState)
  (st, [{ start := st.last_start, stop := st.last_stop, uid := uid,
          reloaded := true, finished := false, http_range := http_range }])

/-- `position + self.block_size >= self.stop` with `stop` possibly `float('inf')`
(the comparison is then false). -/
def stopReached (block_size : Nat) (stopv : Option Nat) (position : Nat) : Bool :=
  match stopv with
  | none => false
  | some s => decide (s ≤ position + block_size)

/-- The per-block signal of `RangedFileReader.__iter__` (`__init__.py` lines
44-53): `finished = not data or (position + self.block_size >= self.stop)`. -/
def blockEvent (block_size : Nat) (stopv : Option Nat) (position : Nat)
    (uid : Option String) (data : List Nat) : ChunkEvent :=
  { start := (position : Int), stop := ((position + readTo block_size stopv position : Nat) : Int),
    uid := uid, reloaded := false,
    finished := data.isEmpty || stopReached block_size stopv position,
    http_range := none }

/-- `RangedFileReader.__iter__` (`__init__.py` lines 33-57): the streaming loop.
`stopv = none` is `float('inf')`; `position` is the loop's cursor and `filepos`
the underlying file descriptor's offset after `seek`/`read` (both equal `start`
on entry).  Each element pairs the signal sent for a block with the data that
`read` returned; the data is yielded only when nonempty (`if not data: break`,
which ends the loop right after the signal). -/
def iterChunks (file : List Nat) (block_size : Nat) (stopv : Option Nat)
    (position filepos : Nat) (uid : Option String) : List (ChunkEvent × List Nat) :=
  if hpos : beforeStop position stopv = true then
    (blockEvent block_size stopv position uid (readData file block_size stopv position filepos),
      readData file block_size stopv position filepos) ::
      (if hdata : readData file block_size stopv position filepos = [] then []
       else iterChunks file block_size stopv (position + block_size)
         (filepos + (readData file block_size stopv position filepos).length) uid)
  else []
termination_by file.length - filepos
decreasing_by
  have h3 := List.length_pos.mpr hdata
  have h1 : file.drop filepos ≠ [] := by
    intro hnil
    apply hdata
    simp [readData, hnil]
  have h2 : filepos < file.length := by
    by_contra hc
    exact h1 (List.drop_eq_nil_of_le (by omega))
  omega

/-- The full event trace of one local response: the construction-time signal
followed by the per-block signals produced when the response layer iterates the
reader that `__init__` configured. -/
def fullTrace (http_range : Option PyStr) (uid : Option String) (file : List Nat)
    (block_size : Nat) : List ChunkEvent :=
  let p := respond http_range uid file
  p.2 ++ (iterChunks file block_size p.1.reader_stop p.1.reader_start p.1.reader_start uid).map
      Prod.fst

end Ranged

namespace LocalResp

/-! ### `ranged_fileresponse/local.py` -/

/-- `RangedFileReader.parse_range_header` in `local.py` (lines 75-125) is
verbatim the same function as in `__init__.py`; the embedding is shared. -/
abbrev parse_range_header := Ranged.parse_range_header

/-- The per-block signal of `local.py`'s `RangedFileReader.__iter__` (lines
52-69): here `finished = position + self.block_size >= self.size` — the
comparison is against the total resource size, not the configured stop, and the
emptiness of `data` plays no part. -/
def blockEvent (file : List Nat) (block_size : Nat) (stopv : Option Nat) (position : Nat)
    (uid : Option String) : ChunkEvent :=
  { start := (position : Int), stop := ((position + readTo block_size stopv position : Nat) : Int),
    uid := uid, reloaded := false,
    finished := decide (file.length ≤ position + block_size),
    http_range := none }

/-- `local.py` `RangedFileReader.__iter__` (lines 45-73).  The signal is sent
only when a `ranged_response` was injected (`RangedLocalFileResponse` does not
inject one), hence the `Option ChunkEvent` per block. -/
def iterChunks (file : List Nat) (block_size : Nat) (stopv : Option Nat)
    (position filepos : Nat) (uid : Option String) (ranged_response : Bool) :
    List (Option ChunkEvent × List Nat) :=
  if hpos : beforeStop position stopv = true then
    ((if ranged_response then some (blockEvent file block_size stopv position uid) else none),
      readData file block_size stopv position filepos) ::
      (if hdata : readData file block_size stopv position filepos = [] then []
       else iterChunks file block_size stopv (position + block_size)
         (filepos + (readData file block_size stopv position filepos).length) uid ranged_response)
  else []
termination_by file.length - filepos
decreasing_by
  have h3 := List.length_pos.mpr hdata
  have h1 : file.drop filepos ≠ [] := by
    intro hnil
    apply hdata
    simp [readData, hnil]
  have h2 : filepos < file.length := by
    by_contra hc
    exact h1 (List.drop_eq_nil_of_le (by omega))
  omega

/-- `RangedLocalFileResponse.add_range_headers` (`local.py` lines 179-214);
textually the same planner as `RangedFileResponse.add_range_headers`, including
the unconditional overwrite of `self.ranged_file.stop` on the 206 path. -/
def add_range_headers (st0 : Ranged.RangedState) (range_header : PyStr) (size : Nat) :
    Ranged.RangedState :=
  let st := { st0 with accept_ranges := true }
  let ranges : Option (List (Int × Int)) :=
    match parse_range_header range_header size with
    | .error _ => none
    | .ok r => r
  match ranges with
  | some [(start, stop)] =>
    let st := { st with last_start := start, last_stop := stop }
    if start ≥ (size : Int) then { st with status := 416 }
    else
      let stop := if stop ≥ (size : Int) then (size : Int) else stop
      { st with
        last_stop := stop
        reader_start := start.toNat
        reader_stop := some stop.toNat
        content_range := some (start, stop - 1, size)
        content_length := some (stop - start)
        status := 206 }
  | _ => st

/-- `RangedLocalFileResponse.__init__` (`local.py` lines 135-177).
`max_content_size = 0` means unlimited (`float('inf')`, embedded as
`reader_stop = none`); otherwise the reader is created with
`stop = max_content_size`.  The construction-time signal with `reloaded=True`
is emitted with `last_start`/`last_stop`. -/
def respond (http_range : Option PyStr) (uid : Option String) (max_content_size : Nat)
    (file : List Nat) : Ranged.RangedState × List ChunkEvent :=
  let size := file.length
  let mcs : Option Nat := if max_content_size = 0 then none else some max_content_size
  let st0 : Ranged.RangedState := { reader_stop := mcs }
  let st :=
    match http_range with
    | some h => add_range_headers st0 h size
    | none => st0
  (st, [{ start := st.last_start, stop := st.last_stop, uid := uid,
          reloaded := true, finished := false, http_range := http_range }])

end LocalResp

namespace GoogleResp

/-! ### `ranged_fileresponse/google.py` and `google_storage_file.py`

The network transport (`google.resumable_media` `ChunkedDownload`) is an
external collaborator.  Its observable inputs/outputs are parameters of the
embedding: the authoritative resource size learned from the first fetch
(`download.total_bytes`) is a `size : Nat` argument, and the sequence of chunk
payloads the session delivers is a `List (List Nat)` argument. -/

/-- The per-spec part of `RangedGoogleBlobResponse.get_base_ranges` (`google.py`
lines 110-131), from `val = range_.split(',')[0].strip()` on: only the first
comma-separated spec is examined; a suffix spec `-N` is encoded as a negative
start.  `.error ()` is an uncaught `BadRequest`. -/
def baseSpec (range_ : PyStr) : Except Unit (Option Int × Option Int) :=
  let val := pyStrip ((pySplit ',' range_).headD [])
  if ¬ ('-' ∈ val) then .error ()
  else
    let q := pySplitOnce '-' val
    if q.1 ≠ [] ∧ pyIsNumeric q.1 = false then .error ()
    else if q.2 ≠ [] ∧ pyIsNumeric q.2 = false then .error ()
    else
      let stop : Int := if q.2 = [] then 0 else (digitsVal q.2 : Int)
      if q.1 = [] ∧ stop > 0 then .ok (some (-stop), some 0)
      else .ok (some (if q.1 = [] then 0 else (digitsVal q.1 : Int)), some stop)

/-- `RangedGoogleBlobResponse.get_base_ranges` (`google.py` lines 65-131).
`.error ()` is an uncaught `BadRequest`; `.ok (none, none)` is the
`return None, None` for a header without `=`. -/
def get_base_ranges (header : PyStr) : Except Unit (Option Int × Option Int) :=
  if header = [] ∨ ¬ ('=' ∈ header) then .ok (none, none)
  else
    let p := pySplitOnce '=' header
    let units := pyLower (pyStrip p.1)
    if units ≠ "bytes".data then .error ()
    else baseSpec p.2

/-- `MAX_DOWN_SIZE` (`google_storage_file.py` line 8). -/
def MAX_DOWN_SIZE : Nat := 0

/-- The range resolution of `RangedGoogleStorageFileReader.__init__`
(`google_storage_file.py` lines 31-74): a negative start (suffix request) is
resolved against the size learned by the probe fetch; `stop == 0` means "to the
end of the file"; `MAX_DOWN_SIZE` may clamp the stop. -/
def resolveReader (start stop : Int) (size : Nat) : Int × Int :=
  let start := if start < 0 then (size : Int) + start else start
  let stop := if stop = 0 then (size : Int) else stop
  let stop :=
    if 0 < MAX_DOWN_SIZE ∧ (MAX_DOWN_SIZE : Int) < (size : Int) - start then
      start + (MAX_DOWN_SIZE : Int)
    else stop
  (start, stop)

/-- Headers set by `RangedGoogleBlobResponse` (`google.py`). -/
structure GoogleState where
  status : Nat := 200
  accept_ranges : Bool := false
  content_range : Option (Int × Int × Nat) := none
  content_length : Option Int := none
deriving DecidableEq

/-- `RangedGoogleBlobResponse.add_range_headers` (`google.py` lines 133-154). -/
def add_range_headers (start stop : Int) (size : Nat) : GoogleState :=
  let st : GoogleState := { accept_ranges := true }
  if start ≥ (size : Int) then { st with status := 416 }
  else
    let stop := if stop ≥ (size : Int) then (size : Int) else stop
    { st with
      content_range := some (start, stop - 1, size)
      content_length := some (stop - start)
      status := 206 }

/-- `RangedGoogleBlobResponse.__init__` (`google.py` lines 15-63): parse the
base ranges, build the reader (resolving them against the fetched size), set
headers when a range header was present, and emit the construction-time signal
with `reloaded=True` — carrying the pre-resolution base `start`/`stop`, not the
resolved ones.  `.error ()` propagates both the `BadRequest` of
`get_base_ranges` and the `TypeError` that `start < 0` raises on the `None`
base ranges of a header without `=`. -/
def respond (http_range : Option PyStr) (uid : Option String) (size : Nat) :
    Except Unit (GoogleState × ChunkEvent) := do
  let base ← match http_range with
    | some h => get_base_ranges h
    | none => pure ((some 0 : Option Int), (some 0 : Option Int))
  match base with
  | (some bstart, some bstop) =>
    let _resolved := resolveReader bstart bstop size
    let st : GoogleState :=
      match http_range with
      | some _ => add_range_headers _resolved.1 _resolved.2 size
      | none => {}
    pure (st, { start := bstart, stop := bstop, uid := uid,
                reloaded := true, finished := false, http_range := http_range })
  | _ => .error ()

/-- The chunk-forwarding skeleton of `RangedGoogleStorageFileReader.__next__`
(`google_storage_file.py` lines 84-109): the first produced block is the
already-fetched `initial_chunk`, returned unconditionally; every later call
stops when the download session reports `finished` (all chunks consumed) and
otherwise consumes one more chunk, stopping before an empty one.
(`_notify_chunk`, the per-block analytics event, is not needed by the claims
about this reader and is not modelled.) -/
def takeChunks : List (List Nat) → List (List Nat)
  | [] => []
  | c :: rest => if c = [] then [] else c :: takeChunks rest

/-- The blocks produced by iterating `RangedGoogleStorageFileReader`: the
initial chunk followed by the later chunks the session delivers. -/
def remoteIter (initial : List Nat) (rest : List (List Nat)) : List (List Nat) :=
  initial :: takeChunks rest

end GoogleResp

/-! ### Helper lemmas about the Python string primitives -/

theorem dropWhile_eq_self_of_not {p : Char → Bool} {l : List Char}
    (h : ∀ c ∈ l, p c = false) : l.dropWhile p = l := by
  cases l with
  | nil => rfl
  | cons a t => simp [List.dropWhile_cons, h a (by simp)]

theorem pyStrip_eq_self {l : PyStr} (h : ∀ c ∈ l, isPySpace c = false) : pyStrip l = l := by
  unfold pyStrip
  rw [dropWhile_eq_self_of_not h,
    dropWhile_eq_self_of_not (fun c hc => h c (List.mem_reverse.mp hc)), List.reverse_reverse]

theorem pySplitOnce_append {sep : Char} {xs : PyStr} (ys : PyStr)
    (h : ∀ c ∈ xs, c ≠ sep) : pySplitOnce sep (xs ++ sep :: ys) = (xs, ys) := by
  induction xs with
  | nil => simp [pySplitOnce]
  | cons c t ih =>
    simp only [List.cons_append, pySplitOnce, if_neg (h c (by simp)), List.append_eq]
    rw [ih (fun x hx => h x (by simp [hx]))]

theorem pySplit_eq_single {sep : Char} {l : PyStr} (h : ∀ c ∈ l, c ≠ sep) :
    pySplit sep l = [l] := by
  induction l with
  | nil => rfl
  | cons c t ih =>
    simp only [pySplit, if_neg (h c (by simp))]
    rw [ih (fun x hx => h x (by simp [hx]))]

theorem pySplit_append {sep : Char} {r1 : PyStr} (r2 : PyStr)
    (h : ∀ c ∈ r1, c ≠ sep) : pySplit sep (r1 ++ sep :: r2) = r1 :: pySplit sep r2 := by
  induction r1 with
  | nil => simp [pySplit]
  | cons c t ih =>
    simp only [List.cons_append, pySplit, if_neg (h c (by simp)), List.append_eq]
    rw [ih (fun x hx => h x (by simp [hx]))]

/-! ### Decimal numerals, as Python prints and parses them -/

/-- The decimal digit string of `n` (what Python's `str(n)` writes into a
range header). -/
def natReprL (n : Nat) : PyStr :=
  if n < 10 then [Nat.digitChar n]
  else natReprL (n / 10) ++ [Nat.digitChar (n % 10)]
termination_by n
decreasing_by exact Nat.div_lt_self (by omega) (by omega)

/-- The characters a decimal numeral can contain, and the facts the parser
lemmas need about each of them. -/
def isGoodDigit (c : Char) : Prop :=
  c.isDigit = true ∧ c ≠ '-' ∧ c ≠ '+' ∧ c ≠ ',' ∧ c ≠ '=' ∧ isPySpace c = false

theorem digitChar_good {d : Nat} (h : d < 10) :
    isGoodDigit (Nat.digitChar d) ∧ (Nat.digitChar d).toNat - 48 = d := by
  unfold isGoodDigit
  interval_cases d <;> exact ⟨⟨by decide, by decide, by decide, by decide, by decide,
    by decide⟩, by decide⟩

theorem natReprL_ne_nil (n : Nat) : natReprL n ≠ [] := by
  rw [natReprL]
  split <;> simp

theorem natReprL_good (n : Nat) : ∀ c ∈ natReprL n, isGoodDigit c := by
  induction n using Nat.strong_induction_on with
  | _ n ih =>
    rw [natReprL]
    split
    · intro c hc
      rw [List.mem_singleton] at hc
      subst hc
      exact (digitChar_good (by omega)).1
    · intro c hc
      rcases List.mem_append.mp hc with h1 | h2
      · exact ih (n / 10) (Nat.div_lt_self (by omega) (by omega)) c h1
      · rw [List.mem_singleton] at h2
        subst h2
        exact (digitChar_good (Nat.mod_lt n (by omega))).1

theorem digitsVal_append_singleton (xs : PyStr) (c : Char) :
    digitsVal (xs ++ [c]) = digitsVal xs * 10 + (c.toNat - 48) := by
  unfold digitsVal
  rw [List.foldl_append]
  rfl

theorem digitsVal_natReprL (n : Nat) : digitsVal (natReprL n) = n := by
  induction n using Nat.strong_induction_on with
  | _ n ih =>
    rw [natReprL]
    split
    · next h =>
      show digitsVal [Nat.digitChar n] = n
      unfold digitsVal
      simp [(digitChar_good h).2]
    · next h =>
      rw [digitsVal_append_singleton, ih (n / 10) (Nat.div_lt_self (by omega) (by omega)),
        (digitChar_good (Nat.mod_lt n (by omega))).2]
      omega

theorem allDigits_natReprL (n : Nat) : allDigits (natReprL n) :=
  ⟨natReprL_ne_nil n, fun c hc => (natReprL_good n c hc).1⟩

theorem pyStrip_natReprL (n : Nat) : pyStrip (natReprL n) = natReprL n :=
  pyStrip_eq_self (fun c hc => (natReprL_good n c hc).2.2.2.2.2)

theorem natReprL_head_not_minus (n : Nat) : ¬ (natReprL n).head? = some '-' := by
  intro hc
  have hm : '-' ∈ natReprL n := by
    cases hh : natReprL n with
    | nil => exact (natReprL_ne_nil n hh).elim
    | cons a t =>
      rw [hh] at hc
      simp only [List.head?_cons, Option.some.injEq] at hc
      simp [hc]
  exact (natReprL_good n '-' hm).2.1 rfl

theorem natReprL_head_not_plus (n : Nat) : ¬ (natReprL n).head? = some '+' := by
  intro hc
  have hm : '+' ∈ natReprL n := by
    cases hh : natReprL n with
    | nil => exact (natReprL_ne_nil n hh).elim
    | cons a t =>
      rw [hh] at hc
      simp only [List.head?_cons, Option.some.injEq] at hc
      simp [hc]
  exact (natReprL_good n '+' hm).2.2.1 rfl

theorem pyInt_natReprL (n : Nat) : pyInt (natReprL n) = .ok (n : Int) := by
  unfold pyInt
  rw [pyStrip_natReprL]
  rw [if_neg (natReprL_head_not_minus n), if_neg (natReprL_head_not_plus n),
    if_pos (allDigits_natReprL n), digitsVal_natReprL]

theorem pyInt_neg_natReprL (n : Nat) : pyInt ('-' :: natReprL n) = .ok (-(n : Int)) := by
  unfold pyInt
  have hstrip : pyStrip ('-' :: natReprL n) = '-' :: natReprL n := by
    apply pyStrip_eq_self
    intro c hc
    rcases List.mem_cons.mp hc with h1 | h2
    · subst h1; decide
    · exact (natReprL_good n c h2).2.2.2.2.2
  rw [hstrip]
  rw [if_pos (by simp), List.tail_cons, if_pos (allDigits_natReprL n), digitsVal_natReprL]

/-! ### Reduction lemmas for the two header parsers on `bytes=...` headers -/

theorem parse_bytes_header (r : PyStr) (size : Nat) :
    Ranged.parse_range_header ("bytes=".data ++ r) size
      = Ranged.parseSpecs size (pySplit ',' r) := by
  have hmem : '=' ∈ "bytes=".data ++ r := List.mem_append.mpr (Or.inl (by decide))
  have hne : "bytes=".data ++ r ≠ [] := by
    intro hc
    rw [hc] at hmem
    exact (List.not_mem_nil '=') hmem
  have hsplit : pySplitOnce '=' ("bytes=".data ++ r) = ("bytes".data, r) := by
    have h2 : "bytes=".data ++ r = "bytes".data ++ '=' :: r := rfl
    rw [h2]
    exact pySplitOnce_append r (by decide)
  unfold Ranged.parse_range_header
  rw [if_neg (fun hc => hc.elim (fun h => hne h) (fun h => h hmem)), hsplit]
  have hunits : pyLower (pyStrip "bytes".data) = "bytes".data := by decide
  rw [if_neg (fun h => h hunits)]

theorem gbr_bytes_header (r : PyStr) :
    GoogleResp.get_base_ranges ("bytes=".data ++ r) = GoogleResp.baseSpec r := by
  have hmem : '=' ∈ "bytes=".data ++ r := List.mem_append.mpr (Or.inl (by decide))
  have hne : "bytes=".data ++ r ≠ [] := by
    intro hc
    rw [hc] at hmem
    exact (List.not_mem_nil '=') hmem
  have hsplit : pySplitOnce '=' ("bytes=".data ++ r) = ("bytes".data, r) := by
    have h2 : "bytes=".data ++ r = "bytes".data ++ '=' :: r := rfl
    rw [h2]
    exact pySplitOnce_append r (by decide)
  unfold GoogleResp.get_base_ranges
  rw [if_neg (fun hc => hc.elim (fun h => hne h) (fun h => h hmem)), hsplit]
  have hunits : pyLower (pyStrip "bytes".data) = "bytes".data := by decide
  rw [if_neg (fun h => h hunits)]

theorem natReprL_dash_natReprL_good (N M : Nat) :
    ∀ c ∈ natReprL N ++ '-' :: natReprL M, isPySpace c = false ∧ c ≠ ',' := by
  intro c hc
  rcases List.mem_append.mp hc with h1 | h2
  · have := natReprL_good N c h1
    exact ⟨this.2.2.2.2.2, this.2.2.2.1⟩
  · rcases List.mem_cons.mp h2 with h3 | h4
    · subst h3
      exact ⟨by decide, by decide⟩
    · have := natReprL_good M c h4
      exact ⟨this.2.2.2.2.2, this.2.2.2.1⟩

/-- `parseSpec` on an explicit two-sided spec `N-M`. -/
theorem parseSpec_explicit (size N M : Nat) :
    Ranged.parseSpec size (natReprL N ++ '-' :: natReprL M)
      = (if (N : Int) ≥ (M : Int) + 1 then .ok none
         else .ok (some ((N : Int), (M : Int) + 1))) := by
  unfold Ranged.parseSpec
  rw [pyStrip_eq_self (fun c hc => (natReprL_dash_natReprL_good N M c hc).1)]
  have hmem : '-' ∈ natReprL N ++ '-' :: natReprL M :=
    List.mem_append.mpr (Or.inr (List.mem_cons_self '-' _))
  rw [if_neg (fun h => h hmem)]
  obtain ⟨c, t, hct⟩ := List.exists_cons_of_ne_nil (natReprL_ne_nil N)
  have hcgood : isGoodDigit c := natReprL_good N c (by rw [hct]; exact List.mem_cons_self c t)
  have hhead : (natReprL N ++ '-' :: natReprL M).head? ≠ some '-' := by
    rw [hct]
    intro hx
    simp only [List.cons_append, List.head?_cons, Option.some.injEq] at hx
    exact hcgood.2.1 hx
  rw [if_neg hhead]
  rw [pySplitOnce_append _ (fun x hx => (natReprL_good N x hx).2.1)]
  simp only [pyInt_natReprL, if_neg (natReprL_ne_nil M), Except.map]

/-- `parseSpec` on a suffix spec `-K`. -/
theorem parseSpec_suffix (size K : Nat) :
    Ranged.parseSpec size ('-' :: natReprL K)
      = .ok (some (max 0 ((size : Int) - (K : Int)), (size : Int))) := by
  unfold Ranged.parseSpec
  have hstrip : pyStrip ('-' :: natReprL K) = '-' :: natReprL K := by
    apply pyStrip_eq_self
    intro c hc
    rcases List.mem_cons.mp hc with h1 | h2
    · subst h1; decide
    · exact (natReprL_good K c h2).2.2.2.2.2
  rw [hstrip]
  have hmem : '-' ∈ '-' :: natReprL K := List.mem_cons_self '-' _
  rw [if_neg (fun h => h hmem)]
  rw [if_pos (by simp), pyInt_neg_natReprL K]
  have harith : (if (size : Int) + -(K : Int) < 0 then 0 else (size : Int) + -(K : Int))
      = max 0 ((size : Int) - (K : Int)) := by
    split <;> omega
  simp only [harith]

theorem parseSpecs_single (size : Nat) (v : PyStr) :
    Ranged.parseSpecs size [v]
      = (match Ranged.parseSpec size v with
         | .error _ => .error ()
         | .ok none => .ok none
         | .ok (some r) => .ok (some [r])) := by
  cases h : Ranged.parseSpec size v with
  | error e => simp [Ranged.parseSpecs, h]
  | ok o => cases o <;> simp [Ranged.parseSpecs, h]

theorem baseSpec_first (r1 r2 : PyStr) (h : ∀ c ∈ r1, c ≠ ',') :
    GoogleResp.baseSpec (r1 ++ ',' :: r2) = GoogleResp.baseSpec r1 := by
  unfold GoogleResp.baseSpec
  rw [pySplit_append r2 h, pySplit_eq_single h]
  simp only [List.headD_cons]

theorem baseSpec_suffix (K : Nat) (hK : 0 < K) :
    GoogleResp.baseSpec ('-' :: natReprL K) = .ok (some (-(K : Int)), some 0) := by
  unfold GoogleResp.baseSpec
  have hnc : ∀ c ∈ ('-' :: natReprL K), c ≠ ',' := by
    intro c hc
    rcases List.mem_cons.mp hc with h1 | h2
    · subst h1; decide
    · exact (natReprL_good K c h2).2.2.2.1
  rw [pySplit_eq_single hnc]
  have hstrip : pyStrip ('-' :: natReprL K) = '-' :: natReprL K := by
    apply pyStrip_eq_self
    intro c hc
    rcases List.mem_cons.mp hc with h1 | h2
    · subst h1; decide
    · exact (natReprL_good K c h2).2.2.2.2.2
  simp only [List.headD_cons, hstrip]
  have hmem : '-' ∈ '-' :: natReprL K := List.mem_cons_self '-' _
  rw [if_neg (fun h => h hmem)]
  have hq : pySplitOnce '-' ('-' :: natReprL K) = ([], natReprL K) := by
    simp [pySplitOnce]
  rw [hq]
  have hnum : pyIsNumeric (natReprL K) = true := by
    unfold pyIsNumeric
    exact decide_eq_true (allDigits_natReprL K)
  rw [if_neg (by simp), if_neg (by simp [hnum])]
  rw [if_neg (natReprL_ne_nil K), digitsVal_natReprL]
  rw [if_pos ⟨rfl, by exact_mod_cast hK⟩]

/-! ### Lemmas about the streaming loops -/

theorem iterChunks_not_reloaded (file : List Nat) (bs : Nat) (stopv : Option Nat) :
    ∀ pos fp uid, ∀ ev ∈ (Ranged.iterChunks file bs stopv pos fp uid).map Prod.fst,
      ev.reloaded = false := by
  intro pos fp uid
  induction pos, fp, uid using Ranged.iterChunks.induct file bs stopv with
  | case1 pos fp uid hpos ih =>
    rw [Ranged.iterChunks, dif_pos hpos]
    intro ev hev
    rw [List.map_cons] at hev
    rcases List.mem_cons.mp hev with h1 | h2
    · subst h1
      rfl
    · by_cases hd : readData file bs stopv pos fp = []
      · rw [dif_pos hd] at h2
        simp at h2
      · rw [dif_neg hd] at h2
        exact ih hd ev h2
  | case2 pos fp uid hpos =>
    rw [Ranged.iterChunks, dif_neg hpos]
    intro ev hev
    simp at hev

theorem iterChunks_flatten (file : List Nat) (bs : Nat) (uid : Option String) (hbs : 0 < bs) :
    ∀ n stop pos, stop - pos ≤ n → pos < stop → stop ≤ file.length →
      ((Ranged.iterChunks file bs (some stop) pos pos uid).map Prod.snd).flatten
        = (file.drop pos).take (stop - pos) := by
  intro n
  induction n with
  | zero =>
    intro stop pos h1 h2 _
    omega
  | succ n ih =>
    intro stop pos h1 h2 h3
    rw [Ranged.iterChunks, dif_pos (by simp only [beforeStop, decide_eq_true_eq]; omega)]
    have hdlen : (readData file bs (some stop) pos pos).length = min bs (stop - pos) := by
      simp only [readData, readTo, List.length_take, List.length_drop]
      omega
    have hdne : readData file bs (some stop) pos pos ≠ [] := by
      intro hc
      have := congrArg List.length hc
      rw [hdlen] at this
      simp only [List.length_nil] at this
      omega
    rw [dif_neg hdne]
    simp only [List.map_cons, List.flatten_cons]
    by_cases hcase : pos + bs < stop
    · have hmin : min bs (stop - pos) = bs := by omega
      rw [hdlen, hmin]
      rw [ih stop (pos + bs) (by omega) hcase h3]
      have hsplit : stop - pos = bs + (stop - (pos + bs)) := by omega
      rw [hsplit, List.take_add]
      congr 1
      · simp [readData, readTo, hmin]
      · congr 1
        rw [List.drop_drop]
    · have hguard : ¬ beforeStop (pos + bs) (some stop) = true := by
        simp only [beforeStop, decide_eq_true_eq]
        omega
      rw [Ranged.iterChunks, dif_neg hguard]
      simp only [List.map_nil, List.flatten_nil, List.append_nil]
      have hmin : min bs (stop - pos) = stop - pos := by omega
      simp [readData, readTo, hmin]

theorem localIter_finished (file : List Nat) (bs : Nat) (stopv : Option Nat) :
    ∀ pos fp uid rr,
      ∀ ev ∈ (LocalResp.iterChunks file bs stopv pos fp uid rr).filterMap Prod.fst,
        ev.finished = decide ((file.length : Int) ≤ ev.start + (bs : Int)) := by
  intro pos fp uid rr
  induction pos, fp, uid, rr using LocalResp.iterChunks.induct file bs stopv with
  | case1 pos fp uid rr hpos ih =>
    rw [LocalResp.iterChunks, dif_pos hpos]
    intro ev hev
    rw [List.filterMap_cons] at hev
    have htail : ∀ ev ∈ (if hdata : readData file bs stopv pos fp = [] then []
        else LocalResp.iterChunks file bs stopv (pos + bs)
          (fp + (readData file bs stopv pos fp).length) uid rr).filterMap Prod.fst,
        ev.finished = decide ((file.length : Int) ≤ ev.start + (bs : Int)) := by
      by_cases hd : readData file bs stopv pos fp = []
      · rw [dif_pos hd]
        intro e he
        simp at he
      · rw [dif_neg hd]
        exact ih hd
    cases rr with
    | false =>
      exact htail ev hev
    | true =>
      have hev2 : ev ∈ LocalResp.blockEvent file bs stopv pos uid ::
          (if hdata : readData file bs stopv pos fp = [] then []
           else LocalResp.iterChunks file bs stopv (pos + bs)
             (fp + (readData file bs stopv pos fp).length) uid true).filterMap Prod.fst := hev
      rcases List.mem_cons.mp hev2 with h1 | h2
      · subst h1
        show decide (file.length ≤ pos + bs) = _
        simp only [LocalResp.blockEvent, decide_eq_decide]
        omega
      · exact htail ev h2
  | case2 pos fp uid rr hpos =>
    rw [LocalResp.iterChunks, dif_neg hpos]
    intro ev hev
    simp at hev

theorem takeChunks_of_all_ne (l : List (List Nat)) (h : ∀ c ∈ l, c ≠ []) :
    GoogleResp.takeChunks l = l := by
  induction l with
  | nil => rfl
  | cons c rest ih =>
    simp only [GoogleResp.takeChunks, if_neg (h c (by simp))]
    rw [ih (fun x hx => h x (by simp [hx]))]

/-! ### Claim theorems -/

/-- C1: for every request whose parsed range is a single range with
`start >= size`, the planner outcome is status 416, no content headers are
emitted, the reader window is left untouched (so the planner configured no
streaming), and the construction of the response emits exactly the one
`reloaded=true` signal — no per-block event, no block, and no byte of the
resource is produced by the 416 path. -/
theorem c1_unsatisfiable_range_416 (header : PyStr) (uid : Option String) (file : List Nat)
    (s e : Int)
    (hparse : Ranged.parse_range_header header file.length = .ok (some [(s, e)]))
    (hge : (file.length : Int) ≤ s) :
    (Ranged.respond (some header) uid file).1.status = 416
    ∧ (Ranged.respond (some header) uid file).1.content_range = none
    ∧ (Ranged.respond (some header) uid file).1.content_length = none
    ∧ (Ranged.respond (some header) uid file).1.reader_start = 0
    ∧ (Ranged.respond (some header) uid file).1.reader_stop = none
    ∧ (Ranged.respond (some header) uid file).2
        = [{ start := s, stop := e, uid := uid, reloaded := true, finished := false,
             http_range := some header }] := by
  have hst : (Ranged.respond (some header) uid file).1
      = { status := 416, last_start := s, last_stop := e, accept_ranges := true } := by
    simp only [Ranged.respond, Ranged.add_range_headers, hparse]
    rw [if_pos hge]
  refine ⟨by rw [hst], by rw [hst], by rw [hst], by rw [hst], by rw [hst], ?_⟩
  show [({ start := (Ranged.respond (some header) uid file).1.last_start,
           stop := (Ranged.respond (some header) uid file).1.last_stop, uid := uid,
           reloaded := true, finished := false, http_range := some header } : ChunkEvent)] = _
  rw [hst]

/-- Witness for C1: `bytes=1500-2000` against a 1000-byte resource. -/
theorem c1_witness :
    (Ranged.respond (some "bytes=1500-2000".data) none (List.replicate 1000 0)).1.status = 416
    ∧ (Ranged.respond (some "bytes=1500-2000".data) none
        (List.replicate 1000 0)).1.content_range = none
    ∧ (Ranged.respond (some "bytes=1500-2000".data) none
        (List.replicate 1000 0)).1.content_length = none
    ∧ (Ranged.respond (some "bytes=1500-2000".data) none
        (List.replicate 1000 0)).1.reader_start = 0
    ∧ (Ranged.respond (some "bytes=1500-2000".data) none
        (List.replicate 1000 0)).1.reader_stop = none
    ∧ (Ranged.respond (some "bytes=1500-2000".data) none (List.replicate 1000 0)).2
        = [{ start := 1500, stop := 2001, uid := none, reloaded := true, finished := false,
             http_range := some "bytes=1500-2000".data }] :=
  c1_unsatisfiable_range_416 "bytes=1500-2000".data none (List.replicate 1000 0) 1500 2001
    (by rfl) (by decide)

/-- C2 (code bug evaluation): `RangedLocalFileResponse` with
`max_content_size=300`, header `bytes=0-`, 1000-byte resource.  The constructor
does cap the reader at `stop=300`, but `add_range_headers` then overwrites
`self.ranged_file.stop` with the clamped client stop `1000`, so the response is
206 with `Content-Range: bytes 0-999/1000`, `Content-Length: 1000`, and
iterating the configured reader streams the whole resource — not `[0,300)` as
the spec's Scenario E requires. -/
theorem c2_max_content_size_overwritten :
    (LocalResp.respond (some "bytes=0-".data) none 300 (List.range 1000)).1.status = 206
    ∧ (LocalResp.respond (some "bytes=0-".data) none 300 (List.range 1000)).1.reader_start = 0
    ∧ (LocalResp.respond (some "bytes=0-".data) none 300 (List.range 1000)).1.reader_stop
        = some 1000
    ∧ (LocalResp.respond (some "bytes=0-".data) none 300 (List.range 1000)).1.content_length
        = some 1000
    ∧ (LocalResp.respond (some "bytes=0-".data) none 300 (List.range 1000)).1.content_range
        = some (0, 999, 1000)
    ∧ ((LocalResp.iterChunks (List.range 1000) 1048576 (some 1000) 0 0 none false).map
        Prod.snd).flatten = List.range 1000 := by
  refine ⟨rfl, rfl, rfl, rfl, rfl, ?_⟩
  simp [LocalResp.iterChunks, readData, readTo, beforeStop]

/-- C3: for every resolved window `0 <= start < stop <= size`, the
concatenation of the blocks produced by the local chunk source is exactly the
resource bytes `[start, stop)` (even though the cursor advances by `blockSize`
per block); and the remote chunk source forwards the chunks of its download
session in order, so whenever the session delivers exactly the bytes of
`[start, stop)` in nonempty chunks, the concatenation of its blocks is again
exactly those bytes. -/
theorem c3_blocks_reconstruct_window :
    (∀ (file : List Nat) (bs start stop : Nat) (uid : Option String),
      0 < bs → start < stop → stop ≤ file.length →
      ((Ranged.iterChunks file bs (some stop) start start uid).map Prod.snd).flatten
        = (file.drop start).take (stop - start))
    ∧ (∀ (file : List Nat) (start stop : Nat) (initial : List Nat) (rest : List (List Nat)),
      (initial :: rest).flatten = (file.drop start).take (stop - start) →
      (∀ c ∈ rest, c ≠ []) →
      (GoogleResp.remoteIter initial rest).flatten
        = (file.drop start).take (stop - start)) := by
  constructor
  · intro file bs start stop uid hbs h1 h2
    exact iterChunks_flatten file bs uid hbs (stop - start) stop start (le_refl _) h1 h2
  · intro file start stop initial rest hjoin hne
    rw [GoogleResp.remoteIter, takeChunks_of_all_ne rest hne]
    exact hjoin

/-- Witness for C3: a 5-byte resource with window `[1,4)` and block size 2, and
a remote session delivering `[10],[11],[12]` for the window `[0,3)`. -/
theorem c3_witness :
    ((Ranged.iterChunks [0, 1, 2, 3, 4] 2 (some 4) 1 1 none).map Prod.snd).flatten
      = (([0, 1, 2, 3, 4] : List Nat).drop 1).take (4 - 1)
    ∧ (GoogleResp.remoteIter [10] [[11], [12]]).flatten
      = (([10, 11, 12] : List Nat).drop 0).take (3 - 0) :=
  ⟨c3_blocks_reconstruct_window.1 [0, 1, 2, 3, 4] 2 1 4 none (by decide) (by decide)
      (by decide),
   c3_blocks_reconstruct_window.2 [10, 11, 12] 0 3 [10] [[11], [12]] (by decide)
      (by decide)⟩

/-- Counterexample to C4: the remote variant does not recover from a malformed
range header — for the unsupported unit `items=0-10`, `get_base_ranges` raises
`BadRequest`, which `RangedGoogleBlobResponse.__init__` does not catch, so the
error is surfaced to the caller instead of a full-resource 200 response. -/
theorem c4_remote_raises_badrequest :
    GoogleResp.respond (some "items=0-10".data) none 1000 = .error ()
    ∧ GoogleResp.get_base_ranges "items=0-10".data = .error () := ⟨rfl, rfl⟩

/-- C4 (amended): the local variant recovers from every malformed header the
parser rejects (unsupported unit, bad syntax, non-numeric fields via the caught
`ValueError`, inverted range) by serving the full-resource 200 response with no
range headers and the reader window untouched; the remote variant instead
raises `BadRequest` for an unsupported unit, a spec without `-`, or
non-numeric fields. -/
theorem c4_malformed_fallback_local_only :
    (∀ (header : PyStr) (uid : Option String) (file : List Nat),
      (Ranged.parse_range_header header file.length = .error ()
        ∨ Ranged.parse_range_header header file.length = .ok none) →
      (Ranged.respond (some header) uid file).1.status = 200
        ∧ (Ranged.respond (some header) uid file).1.content_range = none
        ∧ (Ranged.respond (some header) uid file).1.content_length = none
        ∧ (Ranged.respond (some header) uid file).1.reader_start = 0
        ∧ (Ranged.respond (some header) uid file).1.reader_stop = none)
    ∧ Ranged.parse_range_header "items=0-10".data 1000 = .ok none
    ∧ Ranged.parse_range_header "bytes=10".data 1000 = .ok none
    ∧ Ranged.parse_range_header "bytes=a-b".data 1000 = .error ()
    ∧ Ranged.parse_range_header "bytes=5-2".data 1000 = .ok none
    ∧ GoogleResp.get_base_ranges "items=0-10".data = .error ()
    ∧ GoogleResp.get_base_ranges "bytes=10".data = .error ()
    ∧ GoogleResp.get_base_ranges "bytes=a-b".data = .error () := by
  refine ⟨?_, by decide, by decide, by decide, by decide, by decide, by decide, by decide⟩
  intro header uid file h
  have hst : (Ranged.respond (some header) uid file).1
      = { accept_ranges := true } := by
    rcases h with h | h <;> simp only [Ranged.respond, Ranged.add_range_headers, h]
  exact ⟨by rw [hst], by rw [hst], by rw [hst], by rw [hst], by rw [hst]⟩

/-- Witness for C4 (amended): the unsupported unit `items=0-10`. -/
theorem c4_witness :
    (Ranged.respond (some "items=0-10".data) none (List.replicate 5 0)).1.status = 200
    ∧ (Ranged.respond (some "items=0-10".data) none (List.replicate 5 0)).1.content_range
        = none
    ∧ (Ranged.respond (some "items=0-10".data) none (List.replicate 5 0)).1.content_length
        = none
    ∧ (Ranged.respond (some "items=0-10".data) none (List.replicate 5 0)).1.reader_start = 0
    ∧ (Ranged.respond (some "items=0-10".data) none (List.replicate 5 0)).1.reader_stop
        = none :=
  c4_malformed_fallback_local_only.1 "items=0-10".data none (List.replicate 5 0)
    (Or.inr (by rfl))

/-- Counterexample to C5: on the syntactically valid two-spec header
`bytes=0-4,10-19` the local planner does not serve a 206 for the first
sub-range — the parser returns both ranges, `len(ranges) == 1` fails, and the
response stays a full-resource 200 with no `Content-Range`. -/
theorem c5_local_multispec_200 :
    Ranged.parse_range_header "bytes=0-4,10-19".data 100 = .ok (some [(0, 5), (10, 20)])
    ∧ (Ranged.respond (some "bytes=0-4,10-19".data) none (List.replicate 100 0)).1.status
        = 200
    ∧ (Ranged.respond (some "bytes=0-4,10-19".data) none
        (List.replicate 100 0)).1.content_range = none := by
  exact ⟨by decide, rfl, rfl⟩

/-- C5 (amended): the remote parser acts on the first comma-separated spec only
(everything after the first comma is ignored, and the response is a 206 for the
first sub-range); the local planner acts on a parsed header only when it
contains exactly one spec — with several specs it discards the whole header and
serves a full-resource 200. -/
theorem c5_first_spec_only_remote :
    (∀ (r1 r2 : PyStr), (∀ c ∈ r1, c ≠ ',') →
      GoogleResp.get_base_ranges ("bytes=".data ++ (r1 ++ ',' :: r2))
        = GoogleResp.get_base_ranges ("bytes=".data ++ r1))
    ∧ (∀ (header : PyStr) (uid : Option String) (file : List Nat) (rs : List (Int × Int)),
      Ranged.parse_range_header header file.length = .ok (some rs) → rs.length ≠ 1 →
      (Ranged.respond (some header) uid file).1.status = 200
        ∧ (Ranged.respond (some header) uid file).1.content_range = none)
    ∧ GoogleResp.respond (some "bytes=0-4,10-19".data) none 1000
        = .ok ({ status := 206, accept_ranges := true, content_range := some (0, 3, 1000),
                 content_length := some 4 },
               { start := 0, stop := 4, uid := none, reloaded := true, finished := false,
                 http_range := some "bytes=0-4,10-19".data }) := by
  refine ⟨?_, ?_, by rfl⟩
  · intro r1 r2 h
    rw [gbr_bytes_header, gbr_bytes_header, baseSpec_first r1 r2 h]
  · intro header uid file rs hparse hlen
    have hst : (Ranged.respond (some header) uid file).1
        = { accept_ranges := true } := by
      simp only [Ranged.respond, Ranged.add_range_headers, hparse]
      match rs, hlen with
      | [], _ => rfl
      | a :: b :: t, _ => rfl
      | [a], h => exact absurd rfl h
    exact ⟨by rw [hst], by rw [hst]⟩

/-- Witness for C5 (amended): `bytes=0-4,10-19`. -/
theorem c5_witness :
    GoogleResp.get_base_ranges ("bytes=".data ++ ("0-4".data ++ ',' :: "10-19".data))
      = GoogleResp.get_base_ranges ("bytes=".data ++ "0-4".data)
    ∧ (Ranged.respond (some "bytes=0-4,10-19".data) none (List.replicate 100 0)).1.status
        = 200
    ∧ (Ranged.respond (some "bytes=0-4,10-19".data) none
        (List.replicate 100 0)).1.content_range = none :=
  ⟨c5_first_spec_only_remote.1 "0-4".data "10-19".data (by decide),
   (c5_first_spec_only_remote.2.1 "bytes=0-4,10-19".data none (List.replicate 100 0)
      [(0, 5), (10, 20)] (by rfl) (by decide)).1,
   (c5_first_spec_only_remote.2.1 "bytes=0-4,10-19".data none (List.replicate 100 0)
      [(0, 5), (10, 20)] (by rfl) (by decide)).2⟩

/-- Counterexample to C6: in the `__init__.py` local reader, `finished` is
compared against the configured `stop`, not the total resource size — with a
20-byte resource, block size 2 and window `[8,10)`, the produced event has
`finished=true` although its nominal end `8+2` is far below the size 20. -/
theorem c6_init_finished_vs_stop :
    (Ranged.iterChunks (List.replicate 20 0) 2 (some 10) 8 8 none).map Prod.fst
      = [{ start := 8, stop := 10, uid := none, reloaded := false, finished := true,
           http_range := none }]
    ∧ 8 + 2 < 20 := by
  refine ⟨?_, by decide⟩
  simp [Ranged.iterChunks, Ranged.blockEvent, readData, readTo, beforeStop, Ranged.stopReached]

/-- C6 (amended): it is the `local.py` reader whose per-block `finished` flag is
`position + block_size >= self.size` — the nominal block end compared against
the total resource size, independent of the configured stop and of the data
read; the `__init__.py` reader instead compares against the configured stop. -/
theorem c6_local_finished_vs_size (file : List Nat) (bs : Nat) (stopv : Option Nat)
    (pos fp : Nat) (uid : Option String) (ev : ChunkEvent)
    (hev : ev ∈ (LocalResp.iterChunks file bs stopv pos fp uid true).filterMap Prod.fst) :
    ev.finished = decide ((file.length : Int) ≤ ev.start + (bs : Int)) :=
  localIter_finished file bs stopv pos fp uid true ev hev

/-- Witness for C6 (amended): the second block of a 4-byte resource read with
block size 2 and window `[0,4)`. -/
theorem c6_witness :
    ({ start := 2, stop := 4, uid := none, reloaded := false, finished := true,
       http_range := none } : ChunkEvent).finished
      = decide ((((List.replicate 4 (0 : Nat)).length : Int))
          ≤ ({ start := 2, stop := 4, uid := none, reloaded := false, finished := true,
               http_range := none } : ChunkEvent).start + ((2 : Nat) : Int)) :=
  c6_local_finished_vs_size (List.replicate 4 0) 2 (some 4) 0 0 none
    { start := 2, stop := 4, uid := none, reloaded := false, finished := true,
      http_range := none }
    (by simp [LocalResp.iterChunks, LocalResp.blockEvent, readData, readTo, beforeStop])

/-- Counterexample to C7: with no range header on a 10-byte resource the
response resolves to the full range `[0,10)`, but the single `reloaded=true`
construction event carries the `(-1, -1)` sentinels, not the resolved
`(start, stop)` of the response. -/
theorem c7_reload_event_sentinel :
    (Ranged.respond none none (List.replicate 10 0)).2
      = [{ start := -1, stop := -1, uid := none, reloaded := true, finished := false,
           http_range := none }]
    ∧ (Ranged.respond none none (List.replicate 10 0)).1.status = 200
    ∧ ((-1 : Int) = 0 → False) := by
  exact ⟨rfl, rfl, by decide⟩

/-- C7 (amended): exactly one `reloaded=true` event is emitted per response, at
construction time and before every per-block event, carrying the raw requested
range header (or absent) — but it carries the planner's `last_start`/`last_stop`
bookkeeping values (`(-1,-1)` sentinels when no, an invalid, or a multi-spec
header was given), and the remote variant carries the pre-resolution base
ranges, not the resolved response range. -/
theorem c7_single_reload_event :
    (∀ (h : Option PyStr) (uid : Option String) (file : List Nat) (bs : Nat),
      (Ranged.fullTrace h uid file bs).filter (fun e => e.reloaded)
        = [{ start := (Ranged.respond h uid file).1.last_start,
             stop := (Ranged.respond h uid file).1.last_stop, uid := uid,
             reloaded := true, finished := false, http_range := h }]
      ∧ (Ranged.fullTrace h uid file bs).head?
        = some { start := (Ranged.respond h uid file).1.last_start,
                 stop := (Ranged.respond h uid file).1.last_stop, uid := uid,
                 reloaded := true, finished := false, http_range := h })
    ∧ (∀ (h : PyStr) (uid : Option String) (size : Nat) (s e : Int)
        (st : GoogleResp.GoogleState) (ev : ChunkEvent),
      GoogleResp.get_base_ranges h = .ok (some s, some e) →
      GoogleResp.respond (some h) uid size = .ok (st, ev) →
      ev.reloaded = true ∧ ev.http_range = some h ∧ ev.start = s ∧ ev.stop = e) := by
  constructor
  · intro h uid file bs
    have htr : Ranged.fullTrace h uid file bs
        = { start := (Ranged.respond h uid file).1.last_start,
            stop := (Ranged.respond h uid file).1.last_stop, uid := uid,
            reloaded := true, finished := false, http_range := h }
          :: (Ranged.iterChunks file bs (Ranged.respond h uid file).1.reader_stop
              (Ranged.respond h uid file).1.reader_start
              (Ranged.respond h uid file).1.reader_start uid).map Prod.fst := rfl
    rw [htr]
    constructor
    · rw [List.filter_cons_of_pos (by rfl)]
      rw [List.filter_eq_nil_iff.mpr]
      intro e he
      rw [iterChunks_not_reloaded file bs (Ranged.respond h uid file).1.reader_stop
        (Ranged.respond h uid file).1.reader_start
        (Ranged.respond h uid file).1.reader_start uid e he]
      decide
    · rfl
  · intro h uid size s e st ev hbase hresp
    have hr : GoogleResp.respond (some h) uid size
        = .ok (GoogleResp.add_range_headers (GoogleResp.resolveReader s e size).1
                 (GoogleResp.resolveReader s e size).2 size,
               { start := s, stop := e, uid := uid, reloaded := true, finished := false,
                 http_range := some h }) := by
      simp only [GoogleResp.respond, hbase]
      rfl
    rw [hr] at hresp
    exact ⟨(congrArg (fun p => p.2.reloaded) (Except.ok.inj hresp)).symm,
      (congrArg (fun p => p.2.http_range) (Except.ok.inj hresp)).symm,
      (congrArg (fun p => p.2.start) (Except.ok.inj hresp)).symm,
      (congrArg (fun p => p.2.stop) (Except.ok.inj hresp)).symm⟩

/-- Witness for C7 (amended): a `bytes=0-4` request on a 10-byte resource,
local and remote. -/
theorem c7_witness :
    ((Ranged.fullTrace (some "bytes=0-4".data) none (List.replicate 10 0) 3).filter
        (fun e => e.reloaded)
      = [{ start := (Ranged.respond (some "bytes=0-4".data) none
              (List.replicate 10 0)).1.last_start,
           stop := (Ranged.respond (some "bytes=0-4".data) none
              (List.replicate 10 0)).1.last_stop, uid := none,
           reloaded := true, finished := false, http_range := some "bytes=0-4".data }])
    ∧ (({ status := 206, accept_ranges := true, content_range := some (0, 3, 10),
          content_length := some 4 } : GoogleResp.GoogleState),
       ({ start := 0, stop := 4, uid := none, reloaded := true, finished := false,
          http_range := some "bytes=0-4".data } : ChunkEvent)).2.reloaded = true :=
  ⟨(c7_single_reload_event.1 (some "bytes=0-4".data) none (List.replicate 10 0) 3).1,
   (c7_single_reload_event.2 "bytes=0-4".data none 10 0 4
      { status := 206, accept_ranges := true, content_range := some (0, 3, 10),
        content_length := some 4 }
      { start := 0, stop := 4, uid := none, reloaded := true, finished := false,
        http_range := some "bytes=0-4".data } (by rfl) (by rfl)).1⟩

/-- C8: parsing `bytes=N-M` (decimal numerals) against a known size yields the
single range `{start: N, stop: M+1}` whenever `N < M`, and whenever the
first-byte position is at least the converted exclusive end (`N >= M+1`) the
parse is Invalid (`None`). -/
theorem c8_explicit_range_parse (N M size : Nat) :
    (N < M →
      Ranged.parse_range_header ("bytes=".data ++ (natReprL N ++ '-' :: natReprL M)) size
        = .ok (some [((N : Int), (M : Int) + 1)]))
    ∧ (M + 1 ≤ N →
      Ranged.parse_range_header ("bytes=".data ++ (natReprL N ++ '-' :: natReprL M)) size
        = .ok none) := by
  rw [parse_bytes_header,
    pySplit_eq_single (fun c hc => (natReprL_dash_natReprL_good N M c hc).2),
    parseSpecs_single, parseSpec_explicit]
  constructor
  · intro h
    rw [if_neg (by omega)]
  · intro h
    rw [if_pos (by omega)]

/-- Witness for C8: `bytes=2-5` parses to `{start:2, stop:6}`, and `bytes=7-2`
(start at or past the exclusive end) is Invalid. -/
theorem c8_witness :
    Ranged.parse_range_header ("bytes=".data ++ (natReprL 2 ++ '-' :: natReprL 5)) 100
      = .ok (some [((2 : Int), (5 : Int) + 1)])
    ∧ Ranged.parse_range_header ("bytes=".data ++ (natReprL 7 ++ '-' :: natReprL 2)) 100
      = .ok none :=
  ⟨(c8_explicit_range_parse 2 5 100).1 (by decide),
   (c8_explicit_range_parse 7 2 100).2 (by decide)⟩

/-- Counterexample to C9: the remote variant violates the suffix rule at `K=0`:
`bytes=-0` parses to base ranges `(0, 0)` — start `0`, not negative — so the
reader resolves to the whole resource `[0, size)` instead of the empty suffix
`start = max(0, size-0) = size` the claim requires. -/
theorem c9_remote_suffix_zero :
    GoogleResp.get_base_ranges "bytes=-0".data = .ok (some 0, some 0)
    ∧ GoogleResp.resolveReader 0 0 10 = (0, 10)
    ∧ ((0 : Int) = max 0 ((10 : Int) - (0 : Int)) → False) := by
  exact ⟨rfl, rfl, by decide⟩

/-- C9 (amended): the local parser resolves every suffix header `bytes=-K` to
`start = max(0, size-K)`, `stop = size`; the remote variant agrees only for
`0 < K <= size` — it encodes the suffix as the negative base start `-K`, and the
reader's second resolution pass (after the probe fetch learns `size`) yields
`start = size - K`, `stop = size`. -/
theorem c9_suffix_resolution (K size : Nat) :
    Ranged.parse_range_header ("bytes=".data ++ ('-' :: natReprL K)) size
      = .ok (some [(max 0 ((size : Int) - (K : Int)), (size : Int))])
    ∧ (0 < K → K ≤ size →
      GoogleResp.get_base_ranges ("bytes=".data ++ ('-' :: natReprL K))
        = .ok (some (-(K : Int)), some 0)
      ∧ GoogleResp.resolveReader (-(K : Int)) 0 size = ((size : Int) - (K : Int), (size : Int))) := by
  constructor
  · rw [parse_bytes_header,
      pySplit_eq_single (fun c hc => by
        rcases List.mem_cons.mp hc with h1 | h2
        · subst h1; decide
        · exact (natReprL_good K c h2).2.2.2.1),
      parseSpecs_single, parseSpec_suffix]
  · intro hK _
    refine ⟨?_, ?_⟩
    · rw [gbr_bytes_header, baseSpec_suffix K hK]
    · have hneg : -(K : Int) < 0 := by omega
      simp only [GoogleResp.resolveReader, if_pos hneg, GoogleResp.MAX_DOWN_SIZE]
      simp only [Nat.lt_irrefl, false_and, if_false, if_pos rfl, Prod.mk.injEq]
      exact ⟨by omega, rfl⟩

/-- Witness for C9 (amended): `bytes=-3` on a 10-byte resource. -/
theorem c9_witness :
    Ranged.parse_range_header ("bytes=".data ++ ('-' :: natReprL 3)) 10
      = .ok (some [(max 0 ((10 : Int) - (3 : Int)), (10 : Int))])
    ∧ GoogleResp.get_base_ranges ("bytes=".data ++ ('-' :: natReprL 3))
      = .ok (some (-(3 : Int)), some 0)
    ∧ GoogleResp.resolveReader (-(3 : Int)) 0 10 = ((10 : Int) - (3 : Int), (10 : Int)) :=
  ⟨(c9_suffix_resolution 3 10).1,
   ((c9_suffix_resolution 3 10).2 (by decide) (by decide)).1,
   ((c9_suffix_resolution 3 10).2 (by decide) (by decide)).2⟩

/-- C10: for the non-numeric header `bytes=a-b` the local `parse_range_header`
does not return the documented `None` — the `int()` conversion raises
`ValueError` — and the planner behaves as if the header were Invalid only
because `add_range_headers` catches the `ValueError` (200 full-resource
response, no range headers). -/
theorem c10_nonnumeric_valueerror (size : Nat) (uid : Option String) (file : List Nat) :
    Ranged.parse_range_header "bytes=a-b".data size = .error ()
    ∧ (Ranged.respond (some "bytes=a-b".data) uid file).1.status = 200
    ∧ (Ranged.respond (some "bytes=a-b".data) uid file).1.content_range = none := by
  exact ⟨rfl, rfl, rfl⟩

